import Mathlib

/-!
Verification of the BlackRoad multi-agent control plane: a shallow embedding of
the task scheduler (`src/agents/task-queue.ts`), the self-healing remediation
engine (`src/agents/self-healer.ts`) and the health coordinator
(`src/agents/coordinator.ts`), followed by theorems settling the spec claims.

Modelling conventions:
- timestamps are natural numbers of milliseconds (ISO strings in the source);
- `crypto.randomUUID()` is modelled by a per-instance fresh counter `nextId`;
- JavaScript `x || d` defaulting (where `0` and the empty string are falsy) is
  modelled by explicit `jsOr*` helpers;
- collaborator calls (task handlers, KV/D1 probes, cross-component dispatch)
  are oracles passed as boolean parameters: `true` means the call succeeded;
- `Array.prototype.sort` is stable in JavaScript, so the head of the sorted
  candidate array is the leftmost candidate of minimal priority; `selectMin`
  computes exactly that element.
-/

namespace BlackRoad

/-- Task status enum from `types/env.ts` (`TaskStatus`). -/
inductive TaskStatus
  | pending
  | queued
  | running
  | completed
  | failed
  | retrying
  | cancelled
  deriving DecidableEq, Repr

/-- `AgentTask` from `types/env.ts`; payload and result maps are opaque and
omitted (no claim depends on their contents). -/
structure Task where
  id : Nat
  kind : String
  status : TaskStatus
  priority : Int
  retryCount : Nat
  maxRetries : Nat
  createdAt : Nat
  updatedAt : Nat
  completedAt : Option Nat := none
  error : Option String := none
  deriving DecidableEq, Repr

/-- Read-only configuration: `MAX_RETRY_ATTEMPTS` and `RETRY_BACKOFF_MS`
environment values after `parseInt` (a missing/NaN value is modelled as 0,
which is falsy in the source's `|| 5` fallback). -/
structure Config where
  maxRetryAttempts : Nat
  retryBackoffMs : Nat
  deriving DecidableEq, Repr

/-- Lifetime counters of the queue (`QueueState.stats`). -/
structure Stats where
  totalEnqueued : Nat := 0
  totalCompleted : Nat := 0
  totalFailed : Nat := 0
  totalRetried : Nat := 0
  deriving DecidableEq, Repr

/-- `QueueState` of `TaskQueueAgent`: the task map is a list in insertion
order (tasks are never deleted, so map iteration order is insertion order),
`processing` is the in-flight id set, `alarm` the single pending wake-up of
`state.storage.setAlarm`, and `nextId` the fresh-id source. -/
structure QueueState where
  tasks : List Task
  processing : List Nat
  stats : Stats
  alarm : Option Nat
  nextId : Nat
  deriving DecidableEq, Repr

def initialQueueState : QueueState :=
  { tasks := [], processing := [], stats := {}, alarm := none, nextId := 0 }

/-- JavaScript `x || d` on an optional number: `0` is falsy. -/
def jsOrInt : Option Int → Int → Int
  | some p, d => if p = 0 then d else p
  | none, d => d

/-- JavaScript `x || d` on an optional natural number: `0` is falsy. -/
def jsOrNat : Option Nat → Nat → Nat
  | some p, d => if p = 0 then d else p
  | none, d => d

/-- JavaScript `x || d` on an optional string: the empty string is falsy. -/
def jsOrStr : Option String → String → String
  | some s, d => if s = "" then d else s
  | none, d => d

/-- `body.maxRetries || parseInt(this.env.MAX_RETRY_ATTEMPTS) || 5`. -/
def defaultMaxRetries (cfg : Config) : Nat :=
  if cfg.maxRetryAttempts = 0 then 5 else cfg.maxRetryAttempts

/-- Partial task in an enqueue request body. -/
structure EnqueueBody where
  kind : Option String := none
  priority : Option Int := none
  maxRetries : Option Nat := none
  deriving DecidableEq, Repr

/-- `handleEnqueue` of `TaskQueueAgent` (task-queue.ts lines 105-142):
builds the new task with defaults, appends it to the map and bumps
`totalEnqueued`.  The D1/queue-producer calls are external effects with no
bearing on the queue state. -/
def handleEnqueue (cfg : Config) (s : QueueState) (body : EnqueueBody) (now : Nat) :
    Task × QueueState :=
  let task : Task :=
    { id := s.nextId
      kind := jsOrStr body.kind "health_check"
      status := .pending
      priority := jsOrInt body.priority 5
      retryCount := 0
      maxRetries := jsOrNat body.maxRetries (defaultMaxRetries cfg)
      createdAt := now
      updatedAt := now }
  (task,
    { s with
      tasks := s.tasks ++ [task]
      stats := { s.stats with totalEnqueued := s.stats.totalEnqueued + 1 }
      nextId := s.nextId + 1 })

/-- Partial update in a PATCH `/task/{id}` body (fields merged by
`Object.assign`; only the fields the claims depend on are represented). -/
structure TaskUpdate where
  status : Option TaskStatus := none
  priority : Option Int := none
  retryCount : Option Nat := none
  maxRetries : Option Nat := none
  error : Option String := none
  deriving DecidableEq, Repr

/-- `Object.assign(task, updates, { updatedAt: now })`. -/
def mergeTask (u : TaskUpdate) (now : Nat) (t : Task) : Task :=
  { t with
    status := u.status.getD t.status
    priority := u.priority.getD t.priority
    retryCount := u.retryCount.getD t.retryCount
    maxRetries := u.maxRetries.getD t.maxRetries
    error := match u.error with | some e => some e | none => t.error
    updatedAt := now }

/-- The per-task effect of `handleUpdateTask`: merge, then the
status-transition side effects on the task record itself. -/
def applyUpd (u : TaskUpdate) (now : Nat) (t : Task) : Task :=
  let m := mergeTask u now t
  match u.status with
  | some .completed => { m with completedAt := some now }
  | some .failed =>
      if m.retryCount < m.maxRetries then
        { m with status := .retrying, retryCount := m.retryCount + 1 }
      else m
  | _ => m

/-- `Set.add` on the in-flight id list. -/
def addProc (l : List Nat) (i : Nat) : List Nat :=
  if l.contains i then l else i :: l

/-- `handleUpdateTask` of `TaskQueueAgent` (task-queue.ts lines 210-253):
`none` models the 404 path.  Status-dependent side effects: completed removes
from in-flight and bumps `totalCompleted`; failed removes from in-flight,
bumps `totalFailed` and, if retries remain on the merged record, overrides the
status to retrying, bumps `retryCount`/`totalRetried` and schedules the
backoff alarm (note the source increments `retryCount` before computing
`Math.pow(2, task.retryCount)`); running adds to in-flight. -/
def handleUpdateTask (cfg : Config) (s : QueueState) (i : Nat) (u : TaskUpdate)
    (now : Nat) : Option (Task × QueueState) :=
  match s.tasks.find? (fun t => t.id == i) with
  | none => none
  | some t0 =>
    let m := mergeTask u now t0
    let base : QueueState :=
      { s with tasks := s.tasks.map (fun t => if t.id == i then applyUpd u now t else t) }
    let s' : QueueState :=
      match u.status with
      | some .completed =>
          { base with
            processing := base.processing.erase i
            stats := { base.stats with totalCompleted := base.stats.totalCompleted + 1 } }
      | some .failed =>
          let b :=
            { base with
              processing := base.processing.erase i
              stats := { base.stats with totalFailed := base.stats.totalFailed + 1 } }
          if m.retryCount < m.maxRetries then
            { b with
              stats := { b.stats with totalRetried := b.stats.totalRetried + 1 }
              alarm := some (now + cfg.retryBackoffMs * 2 ^ (m.retryCount + 1)) }
          else b
      | some .running => { base with processing := addProc base.processing i }
      | _ => base
    some (applyUpd u now t0, s')

/-- Is this task a `processNext` candidate (`pending` or `retrying`)? -/
def isCandidate (t : Task) : Bool :=
  t.status == TaskStatus.pending || t.status == TaskStatus.retrying

/-- Head of the stable sort by ascending priority: the leftmost element of
minimal priority (JavaScript `sort` is stable, so this is `sorted[0]`). -/
def selectMin : List Task → Option Task
  | [] => none
  | t :: ts =>
    match selectMin ts with
    | none => some t
    | some u => if u.priority < t.priority then some u else some t

/-- The selected task's transition when its handler succeeds. -/
def procDone (now : Nat) (t : Task) : Task :=
  { t with status := .completed, updatedAt := now, completedAt := some now }

/-- The selected task's transition when its handler throws: failed, then the
inline retry rule (status retrying and `retryCount` bumped if retries remain). -/
def procFail (msg : String) (now : Nat) (t : Task) : Task :=
  if t.retryCount < t.maxRetries then
    { t with status := .retrying, retryCount := t.retryCount + 1,
             error := some msg, updatedAt := now }
  else
    { t with status := .failed, error := some msg, updatedAt := now }

/-- `handleProcessNext` of `TaskQueueAgent` (task-queue.ts lines 255-307).
`ok` is the handler oracle (`executeTask` resolved vs. threw `msg`).  The
task is marked running and added to in-flight, then the handler outcome is
applied and the id deleted from in-flight again.  On failure with retries
remaining only `totalRetried` is bumped; `totalFailed` is bumped only when
retries are exhausted, and no alarm is scheduled on this path. -/
def handleProcessNext (s : QueueState) (ok : Bool) (msg : String) (now : Nat) :
    Option Task × QueueState :=
  match selectMin (s.tasks.filter isCandidate) with
  | none => (none, s)
  | some sel =>
    let i := sel.id
    if ok then
      (some (procDone now sel),
        { s with
          tasks := s.tasks.map (fun t => if t.id == i then procDone now t else t)
          processing := (addProc s.processing i).erase i
          stats := { s.stats with totalCompleted := s.stats.totalCompleted + 1 } })
    else
      (some (procFail msg now sel),
        { s with
          tasks := s.tasks.map (fun t => if t.id == i then procFail msg now t else t)
          processing := (addProc s.processing i).erase i
          stats :=
            if sel.retryCount < sel.maxRetries then
              { s.stats with totalRetried := s.stats.totalRetried + 1 }
            else
              { s.stats with totalFailed := s.stats.totalFailed + 1 } })

/-- Is this task eligible for `retryFailed` (failed with retries remaining)? -/
def isRetryable (t : Task) : Bool :=
  t.status == TaskStatus.failed && decide (t.retryCount < t.maxRetries)

/-- `handleRetryFailed` of `TaskQueueAgent` (task-queue.ts lines 365-385):
every failed task with retries remaining becomes retrying with `retryCount`
and `totalRetried` bumped; returns the count and the ids. -/
def handleRetryFailed (s : QueueState) (now : Nat) :
    (Nat × List Nat) × QueueState :=
  let chosen := s.tasks.filter isRetryable
  ((chosen.length, chosen.map (·.id)),
    { s with
      tasks := s.tasks.map (fun t =>
        if isRetryable t then
          { t with status := .retrying, retryCount := t.retryCount + 1, updatedAt := now }
        else t)
      stats := { s.stats with totalRetried := s.stats.totalRetried + chosen.length } })

/-- One external operation against the queue instance. -/
inductive QOp
  | enq (body : EnqueueBody) (now : Nat)
  | upd (i : Nat) (u : TaskUpdate) (now : Nat)
  | proc (ok : Bool) (msg : String) (now : Nat)
  | retryAll (now : Nat)

/-- State transition of one operation (responses discarded). -/
def stepOp (cfg : Config) (s : QueueState) : QOp → QueueState
  | .enq body now => (handleEnqueue cfg s body now).2
  | .upd i u now =>
    match handleUpdateTask cfg s i u now with
    | none => s
    | some (_, s') => s'
  | .proc ok msg now => (handleProcessNext s ok msg now).2
  | .retryAll now => (handleRetryFailed s now).2

/-- Run a sequence of operations from the initial state. -/
def runOps (cfg : Config) (ops : List QOp) : QueueState :=
  ops.foldl (stepOp cfg) initialQueueState

/-- Look a task up by id (`tasks.get(id)`). -/
def getTask? (s : QueueState) (i : Nat) : Option Task :=
  s.tasks.find? (fun t => t.id == i)

/-! ## Coordinator (`src/agents/coordinator.ts`) -/

/-- Agent status enum from `types/env.ts` (`AgentHealth.status`). -/
inductive AgentStatus
  | active
  | idle
  | error
  | recovering
  deriving DecidableEq, Repr

/-- `AgentHealth` from `types/env.ts`. -/
structure AgentHealth where
  name : String
  status : AgentStatus
  lastActivity : Nat
  taskCount : Nat
  errorCount : Nat
  deriving DecidableEq, Repr

/-- `CoordinatorState` (the registry; timestamps of the last health check are
not claim-relevant). -/
structure CoordinatorState where
  agents : List AgentHealth
  deriving DecidableEq, Repr

/-- The fixed registry names of `initializeAgents`. -/
def agentNames : List String :=
  ["coordinator", "repo-scraper", "task-queue", "self-healer", "sync-manager"]

/-- `initializeAgents`: every known agent starts idle with zero counters. -/
def initCoordinator (now : Nat) : CoordinatorState :=
  { agents := agentNames.map (fun n =>
      { name := n, status := .idle, lastActivity := now, taskCount := 0, errorCount := 0 }) }

/-- `agents.get(name)`. -/
def findAgent (s : CoordinatorState) (name : String) : Option AgentHealth :=
  s.agents.find? (fun a => a.name == name)

/-- `handleStatusUpdate` of `AgentCoordinator` (coordinator.ts lines 304-324):
`none` models the 404 path; otherwise the agent's status is set, its
`lastActivity` becomes `now`, and `errorCount` is bumped whenever the reported
status is `error` (the source does not compare with the previous status). -/
def handleStatusUpdate (s : CoordinatorState) (name : String) (st : AgentStatus)
    (now : Nat) : Option (AgentHealth × CoordinatorState) :=
  match findAgent s name with
  | none => none
  | some a0 =>
    let f : AgentHealth → AgentHealth := fun a =>
      if a.name == name then
        { a with
          status := st
          lastActivity := now
          errorCount := a.errorCount + (if st = .error then 1 else 0) }
      else a
    some (f a0, { s with agents := s.agents.map f })

/-- The names the `switch` in `handleTriggerAgent` routes to a Durable Object;
any other registered name falls to the 400 `default` branch. -/
def triggerableNames : List String :=
  ["repo-scraper", "task-queue", "self-healer", "sync-manager"]

/-- Outcome of `handleTriggerAgent`. -/
inductive TriggerOutcome
  | notFound
  | notTriggerable
  | triggered
  deriving DecidableEq, Repr

/-- `handleTriggerAgent` of `AgentCoordinator` (coordinator.ts lines 250-302):
404 if the name is unknown, 400 (registry untouched) if it is not one of the
routable kinds, otherwise the forwarded call is made and the local record
becomes active with `lastActivity = now` and `taskCount` bumped. -/
def handleTriggerAgent (s : CoordinatorState) (name : String) (now : Nat) :
    TriggerOutcome × CoordinatorState :=
  match findAgent s name with
  | none => (.notFound, s)
  | some _ =>
    if triggerableNames.contains name then
      (.triggered,
        { s with agents := s.agents.map (fun a =>
            if a.name == name then
              { a with status := .active, lastActivity := now, taskCount := a.taskCount + 1 }
            else a) })
    else (.notTriggerable, s)

/-- Health check status enum from `types/env.ts` (`HealthCheck.status`). -/
inductive CheckStatus
  | pass
  | warn
  | fail
  deriving DecidableEq, Repr

/-- `HealthCheck` (latency and message carry no claim-relevant information). -/
structure Check where
  name : String
  status : CheckStatus
  deriving DecidableEq, Repr

/-- The derived per-agent check of `runHealthChecks` (coordinator.ts lines
187-208): fail on error status, warn on a non-idle agent inactive for more
than 5 minutes, else pass.  A `lastActivity` in the future gives a negative
difference in the source, which is not `> 300000`; truncated `Nat`
subtraction yields 0 there, hence the same comparison result. -/
def agentCheck (now : Nat) (a : AgentHealth) : Check :=
  if a.status = .error then
    { name := "agent-" ++ a.name, status := .fail }
  else if now - a.lastActivity > 300000 ∧ a.status ≠ .idle then
    { name := "agent-" ++ a.name, status := .warn }
  else
    { name := "agent-" ++ a.name, status := .pass }

/-- `runHealthChecks` (coordinator.ts lines 131-211): the KV and D1 probes
pass or fail with their collaborator (`kvOk`, `d1Ok` oracles), the R2 probe
pushes `pass` on both branches, then one derived check per registered agent. -/
def runHealthChecks (kvOk d1Ok : Bool) (now : Nat) (s : CoordinatorState) :
    List Check :=
  [{ name := "kv-cache", status := if kvOk then .pass else .fail },
   { name := "d1-database", status := if d1Ok then .pass else .fail },
   { name := "r2-storage", status := .pass }]
  ++ s.agents.map (agentCheck now)

/-- Overall health enum. -/
inductive Overall
  | healthy
  | degraded
  | unhealthy
  deriving DecidableEq, Repr

/-- Number of checks with the given status. -/
def countChecks (cs : List Check) (st : CheckStatus) : Nat :=
  cs.countP (fun c => c.status == st)

/-- Number of registered agents in `error` status. -/
def countErrorAgents (s : CoordinatorState) : Nat :=
  s.agents.countP (fun a => a.status == AgentStatus.error)

/-- The aggregation of `handleHealthCheck` (coordinator.ts lines 101-110). -/
def computeOverall (cs : List Check) (s : CoordinatorState) : Overall :=
  if countChecks cs .fail > 0 ∨ countErrorAgents s > 1 then .unhealthy
  else if countChecks cs .warn > 0 ∨ countErrorAgents s = 1 then .degraded
  else .healthy

/-- `handleHealthCheck` of `AgentCoordinator` (coordinator.ts lines 97-129):
runs the checks and aggregates the overall status (the snapshot it returns;
the conditional `triggerSelfHeal` call is a cross-component effect). -/
def handleHealthCheck (kvOk d1Ok : Bool) (now : Nat) (s : CoordinatorState) :
    Overall × List Check :=
  let checks := runHealthChecks kvOk d1Ok now s
  (computeOverall checks s, checks)

/-! ## Self-healer (`src/agents/self-healer.ts`) -/

/-- Action kind enum from `types/env.ts` (`SelfHealAction.action`). -/
inductive HealKind
  | restart
  | retry
  | rollback
  | alert
  | scale
  deriving DecidableEq, Repr

/-- Action status enum from `types/env.ts` (`SelfHealAction.status`). -/
inductive ActionStatus
  | pending
  | executing
  | completed
  | failed
  deriving DecidableEq, Repr

/-- `SelfHealAction`. -/
structure HealAction where
  id : Nat
  trigger : String
  kind : HealKind
  target : String
  status : ActionStatus
  createdAt : Nat
  executedAt : Option Nat := none
  result : Option String := none
  deriving DecidableEq, Repr

/-- `HealerState` of `SelfHealerAgent`; `nextId` models `crypto.randomUUID`
freshness, the action map is a list in insertion order. -/
structure HealerState where
  actions : List HealAction
  healCount : Nat
  lastHealAttempt : Option Nat
  consecutiveFailures : Nat
  circuitOpen : Bool
  circuitOpenedAt : Option Nat
  nextId : Nat
  deriving DecidableEq, Repr

def initialHealerState : HealerState :=
  { actions := [], healCount := 0, lastHealAttempt := none,
    consecutiveFailures := 0, circuitOpen := false, circuitOpenedAt := none,
    nextId := 0 }

/-- `CIRCUIT_THRESHOLD` of `SelfHealerAgent`. -/
def circuitThreshold : Nat := 5

/-- `CIRCUIT_RESET_MS` of `SelfHealerAgent`. -/
def circuitResetMs : Nat := 60000

/-- `Map.set` on the action map: replace by id if present, else append. -/
def putAction (l : List HealAction) (a : HealAction) : List HealAction :=
  if l.any (fun b => b.id == a.id) then
    l.map (fun b => if b.id == a.id then a else b)
  else l ++ [a]

/-- The success message per kind written in `executeHealAction`'s switch. -/
def successMsg : HealKind → String
  | .restart => "Agent restart triggered"
  | .retry => "Retry operation completed"
  | .rollback => "Rollback initiated"
  | .alert => "Alert sent"
  | .scale => "Scaling request noted (handled by platform)"

/-- `executeHealAction` of `SelfHealerAgent` (self-healer.ts lines 300-352).
`dispatchOk` is the collaborator oracle; the `scale` branch performs no
collaborator call, so it cannot throw.  Success resets `consecutiveFailures`;
failure records `msg` as the result, bumps `consecutiveFailures` and opens
the breaker (with `circuitOpenedAt = now`) once it reaches the threshold. -/
def executeHealAction (s : HealerState) (a : HealAction) (dispatchOk : Bool)
    (msg : String) (now : Nat) : HealAction × HealerState :=
  let aExec : HealAction := { a with status := .executing, executedAt := some now }
  if dispatchOk || (a.kind == HealKind.scale) then
    let aDone := { aExec with status := .completed, result := some (successMsg a.kind) }
    (aDone, { s with actions := putAction s.actions aDone, consecutiveFailures := 0 })
  else
    let aFail := { aExec with status := .failed, result := some msg }
    let cf := s.consecutiveFailures + 1
    let s' := { s with actions := putAction s.actions aFail, consecutiveFailures := cf }
    (aFail,
      if cf ≥ circuitThreshold then
        { s' with circuitOpen := true, circuitOpenedAt := some now }
      else s')

/-- Response of `handleManualTrigger`. -/
inductive ManualResp
  | circuitOpenErr (resetAt : Nat)
  | acted (a : HealAction)
  deriving DecidableEq, Repr

/-- `handleManualTrigger` of `SelfHealerAgent` (self-healer.ts lines 161-192):
503 with `resetAt = circuitOpenedAt + CIRCUIT_RESET_MS` while the breaker is
open (state untouched, no action created); otherwise a fresh pending action
is created and executed. -/
def handleManualTrigger (s : HealerState) (k : HealKind) (target : String)
    (reason : Option String) (dispatchOk : Bool) (msg : String) (now : Nat) :
    ManualResp × HealerState :=
  if s.circuitOpen then
    (.circuitOpenErr (s.circuitOpenedAt.getD 0 + circuitResetMs), s)
  else
    let a : HealAction :=
      { id := s.nextId, trigger := jsOrStr reason "manual", kind := k,
        target := target, status := .pending, createdAt := now }
    let r := executeHealAction { s with nextId := s.nextId + 1 } a dispatchOk msg now
    (.acted r.1, r.2)

/-- The lazy breaker reset at the top of `handleStatus` (self-healer.ts lines
103-112): while open with a recorded `circuitOpenedAt`, an elapsed time
strictly greater than `CIRCUIT_RESET_MS` closes the breaker, clears
`circuitOpenedAt` and zeroes `consecutiveFailures`. -/
def handleStatus (s : HealerState) (now : Nat) : HealerState :=
  if s.circuitOpen then
    match s.circuitOpenedAt with
    | some t =>
      if now - t > circuitResetMs then
        { s with circuitOpen := false, circuitOpenedAt := none, consecutiveFailures := 0 }
      else s
    | none => s
  else s

/-- `handleResetCircuit` of `SelfHealerAgent` (self-healer.ts lines 419-432):
unconditional close. -/
def handleResetCircuit (s : HealerState) : HealerState :=
  { s with circuitOpen := false, circuitOpenedAt := none, consecutiveFailures := 0 }

/-- `as` is a prefix of `bs` (character lists). -/
def listPre : List Char → List Char → Bool
  | [], _ => true
  | _ :: _, [] => false
  | a :: as, b :: bs => a == b && listPre as bs

/-- `pat` occurs as a contiguous run inside `l` (character lists). -/
def hasSub (pat : List Char) : List Char → Bool
  | [] => pat.isEmpty
  | c :: rest => listPre pat (c :: rest) || hasSub pat rest

/-- JavaScript `haystack.includes(needle)`. -/
def strContains (hay pat : String) : Bool :=
  hasSub pat.data hay.data

/-- Drop the first occurrence of `pat` from `l` (character lists). -/
def dropFirstSub (pat : List Char) : List Char → List Char
  | [] => []
  | c :: rest =>
    if listPre pat (c :: rest) then (c :: rest).drop pat.length
    else c :: dropFirstSub pat rest

/-- JavaScript `s.replace(pat, '')` with a string pattern: only the first
occurrence is removed. -/
def dropFirst (s pat : String) : String :=
  String.mk (dropFirstSub pat.data s.data)

/-- `determineHealAction` of `SelfHealerAgent` (self-healer.ts lines 261-298):
the deterministic substring rule table; `idv` supplies the fresh action id. -/
def determineHealAction (idv : Nat) (c : Check) (now : Nat) : Option HealAction :=
  let base : HealAction :=
    { id := idv, trigger := "check-failed:" ++ c.name, kind := .retry,
      target := "", status := .pending, createdAt := now }
  if strContains c.name "kv" then
    some { base with kind := .retry, target := "kv-namespace" }
  else if strContains c.name "d1" then
    some { base with kind := .alert, target := "d1-database" }
  else if strContains c.name "agent" then
    some { base with kind := .restart, target := dropFirst c.name "agent-" }
  else
    none

/-- The health snapshot a caller posts to `/auto-heal`. -/
structure HealthSnapshot where
  checks : List Check
  agents : List AgentHealth
  deriving DecidableEq, Repr

/-- The first derivation loop of `handleAutoHeal`: one action per failing
check that the rule table maps, ids consumed in order. -/
def deriveFromChecks (idv : Nat) (now : Nat) : List Check → List HealAction × Nat
  | [] => ([], idv)
  | c :: rest =>
    if c.status == CheckStatus.fail then
      match determineHealAction idv c now with
      | some a =>
        let r := deriveFromChecks (idv + 1) now rest
        (a :: r.1, r.2)
      | none => deriveFromChecks idv now rest
    else deriveFromChecks idv now rest

/-- The second derivation loop of `handleAutoHeal`: one restart action per
agent reported in `error` status. -/
def deriveFromAgents (idv : Nat) (now : Nat) : List AgentHealth → List HealAction × Nat
  | [] => ([], idv)
  | a :: rest =>
    if a.status == AgentStatus.error then
      let act : HealAction :=
        { id := idv, trigger := "agent-error:" ++ a.name, kind := .restart,
          target := a.name, status := .pending, createdAt := now }
      let r := deriveFromAgents (idv + 1) now rest
      (act :: r.1, r.2)
    else deriveFromAgents idv now rest

/-- Sequential execution of the derived actions; `oracle` gives each
dispatch outcome in order (`true` when the list runs out). -/
def execAll (s : HealerState) (msg : String) (now : Nat) :
    List HealAction → List Bool → List (HealAction × Bool) × HealerState
  | [], _ => ([], s)
  | a :: rest, oracle =>
    let r1 := executeHealAction s a (oracle.headD true) msg now
    let r2 := execAll r1.2 msg now rest oracle.tail
    ((r1.1, r1.1.status == ActionStatus.completed) :: r2.1, r2.2)

/-- Response of `handleAutoHeal`. -/
inductive AutoHealResp
  | disabled
  | circuitBlocked
  | healed (actionsCount : Nat) (results : List (HealAction × Bool))
  deriving DecidableEq, Repr

/-- `handleAutoHeal` of `SelfHealerAgent` (self-healer.ts lines 194-259):
no-op when self-healing is disabled or the breaker is open; otherwise derives
actions from failing checks and error agents, executes them sequentially, and
always bumps `healCount` and stamps `lastHealAttempt`. -/
def handleAutoHeal (enabled : Bool) (s : HealerState) (h : HealthSnapshot)
    (oracle : List Bool) (msg : String) (now : Nat) : AutoHealResp × HealerState :=
  if !enabled then (.disabled, s)
  else if s.circuitOpen then (.circuitBlocked, s)
  else
    let rc := deriveFromChecks s.nextId now h.checks
    let ra := deriveFromAgents rc.2 now h.agents
    let acts := rc.1 ++ ra.1
    let ex := execAll { s with nextId := ra.2 } msg now acts oracle
    (.healed acts.length ex.1,
      { ex.2 with healCount := ex.2.healCount + 1, lastHealAttempt := some now })

/-! ## Concrete scenario states used by counterexamples and witnesses -/

/-- A configuration with `MAX_RETRY_ATTEMPTS=5` and `RETRY_BACKOFF_MS=1000`. -/
def cfgA : Config := { maxRetryAttempts := 5, retryBackoffMs := 1000 }

/-- Scenario task A: priority 1, pending. -/
def taskA : Task :=
  { id := 0, kind := "health_check", status := .pending, priority := 1,
    retryCount := 0, maxRetries := 5, createdAt := 0, updatedAt := 0 }

/-- Scenario task B: priority 5, pending, enqueued after A. -/
def taskB : Task :=
  { id := 1, kind := "health_check", status := .pending, priority := 5,
    retryCount := 0, maxRetries := 5, createdAt := 1, updatedAt := 1 }

/-- Queue holding A then B, both pending. -/
def qAB : QueueState :=
  { tasks := [taskA, taskB], processing := [], stats := {}, alarm := none, nextId := 2 }

/-- Queue after enqueueing one default task at time 0 into the empty queue. -/
def q1 : QueueState := (handleEnqueue cfgA initialQueueState {} 0).2

/-- `q1` after PATCHing its task to running at time 0. -/
def q1run : QueueState :=
  ((handleUpdateTask cfgA q1 0 { status := some .running } 0).getD (taskA, q1)).2

/-- `q1run` after PATCHing the task to failed at time 0 (updateTask path). -/
def q1updFailed : QueueState :=
  ((handleUpdateTask cfgA q1run 0 { status := some .failed } 0).getD (taskA, q1run)).2

/-- `q1` after one `processNext` whose handler throws (processNext path). -/
def q1procFailed : QueueState := (handleProcessNext q1 false "boom" 0).2

/-- Coordinator registry after one `error` status report for `repo-scraper`. -/
def coordErr1 : CoordinatorState :=
  ((handleStatusUpdate (initCoordinator 0) "repo-scraper" .error 1).getD
    (⟨"", .idle, 0, 0, 0⟩, initCoordinator 0)).2

/-- `coordErr1` after a second `error` status report for the same agent. -/
def coordErr2 : CoordinatorState :=
  ((handleStatusUpdate coordErr1 "repo-scraper" .error 2).getD
    (⟨"", .idle, 0, 0, 0⟩, coordErr1)).2

/-- One failing manual trigger as a state transformer (dispatch throws `msg`). -/
def failTrigStep (k : HealKind) (tgt msg : String) (now : Nat) (s : HealerState) :
    HealerState :=
  (handleManualTrigger s k tgt none false msg now).2

/-- A healer whose breaker opened at time 100 after 5 consecutive failures. -/
def sOpen : HealerState :=
  { initialHealerState with circuitOpen := true, circuitOpenedAt := some 100,
                            consecutiveFailures := 5 }

/-- Does the operation leave `retryCount` and `maxRetries` to the scheduler
(the restriction under which the retry invariants hold)? -/
def goodOp : QOp → Bool
  | .upd _ u _ => u.retryCount.isNone && u.maxRetries.isNone
  | _ => true

/-- Does the operation explicitly request the `retrying` status (the one
non-automatic way to re-enter it)? -/
def setsRetrying : QOp → Bool
  | .upd _ u _ => u.status == some TaskStatus.retrying
  | _ => false

/-- The task record right after enqueueing one default task at time 0. -/
def c5before : Task :=
  { id := 0, kind := "health_check", status := .pending, priority := 5,
    retryCount := 0, maxRetries := 5, createdAt := 0, updatedAt := 0 }

/-- The same task after a failing `processNext` at time 1. -/
def c5after : Task :=
  { id := 0, kind := "health_check", status := .retrying, priority := 5,
    retryCount := 1, maxRetries := 5, createdAt := 0, updatedAt := 1,
    completedAt := none, error := some "x" }

/-! ## General-purpose list lemmas -/

/-- `find?` is unchanged by appending on the right when it already succeeds. -/
theorem find_append_left {α} (p : α → Bool) (l₁ l₂ : List α) (a : α)
    (h : l₁.find? p = some a) : (l₁ ++ l₂).find? p = some a := by
  induction l₁ with
  | nil => simp at h
  | cons x xs ih =>
    by_cases hx : p x
    · rw [List.find?_cons_of_pos _ hx] at h
      rw [List.cons_append, List.find?_cons_of_pos _ hx]
      exact h
    · rw [List.find?_cons_of_neg _ hx] at h
      rw [List.cons_append, List.find?_cons_of_neg _ hx]
      exact ih h

/-- `find?` commutes with mapping a function that preserves the predicate. -/
theorem find_map_keyPres {α} (l : List α) (f : α → α) (p : α → Bool)
    (hp : ∀ t, p (f t) = p t) :
    (l.map f).find? p = (l.find? p).map f := by
  induction l with
  | nil => rfl
  | cons x xs ih =>
    rw [List.map_cons, List.find?_cons, List.find?_cons, hp x]
    cases hx : p x with
    | true => simp
    | false => simpa using ih

/-- A map whose function fixes every member is the identity. -/
theorem map_eq_self_of {α} (l : List α) (f : α → α) (h : ∀ x ∈ l, f x = x) :
    l.map f = l := by
  induction l with
  | nil => rfl
  | cons a as ih => simp [h a (by simp), ih fun x hx => h x (by simp [hx])]

/-- `countP` respects pointwise-equal predicates. -/
theorem countP_congr_on {α} (p q : α → Bool) (l : List α)
    (h : ∀ x ∈ l, p x = q x) : l.countP p = l.countP q := by
  induction l with
  | nil => rfl
  | cons a as ih =>
    simp [List.countP_cons, h a (by simp), ih fun x hx => h x (by simp [hx])]

/-! ## Selection lemmas for `processNext` -/

/-- `selectMin` fails only on the empty candidate list. -/
theorem selectMin_eq_none {l : List Task} (h : selectMin l = none) : l = [] := by
  cases l with
  | nil => rfl
  | cons t ts =>
    exfalso
    rw [selectMin] at h
    cases h' : selectMin ts with
    | none => rw [h'] at h; simp at h
    | some u => rw [h'] at h; by_cases hp : u.priority < t.priority <;> simp [hp] at h

/-- The selected task is a candidate. -/
theorem selectMin_mem {l : List Task} {u : Task} (h : selectMin l = some u) :
    u ∈ l := by
  induction l with
  | nil => simp [selectMin] at h
  | cons t ts ih =>
    rw [selectMin] at h
    cases h' : selectMin ts with
    | none => rw [h'] at h; simp at h; simp [h]
    | some v =>
      rw [h'] at h
      by_cases hp : v.priority < t.priority
      · simp [hp] at h; subst h; exact List.mem_cons_of_mem _ (ih h')
      · simp [hp] at h; simp [h]

/-- The selected task has minimal priority among the candidates. -/
theorem selectMin_le (l : List Task) :
    ∀ u, selectMin l = some u → ∀ x ∈ l, u.priority ≤ x.priority := by
  induction l with
  | nil => intro u h; simp [selectMin] at h
  | cons t ts ih =>
    intro u h
    rw [selectMin] at h
    cases h' : selectMin ts with
    | none =>
      rw [h'] at h
      simp at h
      subst h
      have := selectMin_eq_none h'
      subst this
      intro x hx
      simp at hx
      simp [hx]
    | some v =>
      rw [h'] at h
      by_cases hp : v.priority < t.priority
      · simp [hp] at h
        subst h
        intro x hx
        rcases List.mem_cons.mp hx with rfl | hx
        · exact le_of_lt hp
        · exact ih _ h' x hx
      · simp [hp] at h
        subst h
        intro x hx
        rcases List.mem_cons.mp hx with rfl | hx
        · exact le_refl _
        · exact le_trans (not_lt.mp hp) (ih _ h' x hx)

/-- The selected task is the leftmost candidate of its priority: everything
before it in the candidate list is strictly worse. -/
theorem selectMin_split {l : List Task} {u : Task} (h : selectMin l = some u) :
    ∃ l₁ l₂, l = l₁ ++ u :: l₂ ∧ ∀ x ∈ l₁, u.priority < x.priority := by
  induction l with
  | nil => simp [selectMin] at h
  | cons t ts ih =>
    rw [selectMin] at h
    cases h' : selectMin ts with
    | none =>
      rw [h'] at h
      simp at h
      subst h
      exact ⟨[], ts, rfl, by simp⟩
    | some v =>
      rw [h'] at h
      by_cases hp : v.priority < t.priority
      · simp [hp] at h
        subst h
        obtain ⟨l₁, l₂, hts, hl₁⟩ := ih h'
        refine ⟨t :: l₁, l₂, by rw [hts]; rfl, ?_⟩
        intro x hx
        rcases List.mem_cons.mp hx with rfl | hx
        · exact hp
        · exact hl₁ x hx
      · simp [hp] at h
        subst h
        exact ⟨[], ts, rfl, by simp⟩

/-! ## Claim theorems -/

/-- C7: `processNext` selects, among the tasks with status pending or
retrying, the one with the numerically smallest priority, ties broken by
insertion order (the selected task is preceded in the candidate list only by
strictly higher-priority-value tasks); with no candidate it returns
`processed = false` and leaves the state unchanged. -/
theorem c7_processNext_selection (s : QueueState) (ok : Bool) (msg : String) (now : Nat) :
    (s.tasks.filter isCandidate = [] → handleProcessNext s ok msg now = (none, s)) ∧
    (∀ sel, selectMin (s.tasks.filter isCandidate) = some sel →
      sel ∈ s.tasks.filter isCandidate ∧
      (∀ t ∈ s.tasks.filter isCandidate, sel.priority ≤ t.priority) ∧
      ∃ l₁ l₂, s.tasks.filter isCandidate = l₁ ++ sel :: l₂ ∧
        ∀ t ∈ l₁, sel.priority < t.priority) := by
  constructor
  · intro h
    simp [handleProcessNext, h, selectMin]
  · intro sel hsel
    exact ⟨selectMin_mem hsel, selectMin_le _ sel hsel, selectMin_split hsel⟩

/-- C7 witness: with A(priority 1) and B(priority 5) both pending, A is a
candidate of minimal priority and the first `processNext` call completes A. -/
theorem c7_witness :
    taskA ∈ qAB.tasks.filter isCandidate ∧
    taskA.priority ≤ taskB.priority ∧
    (handleProcessNext qAB true "" 2).1 = some (procDone 2 taskA) :=
  ⟨((c7_processNext_selection qAB true "" 2).2 taskA (by decide)).1,
   ((c7_processNext_selection qAB true "" 2).2 taskA (by decide)).2.1 taskB (by decide),
   by decide⟩

/-- `retryFailed` is the identity with a zero count when no task is failed
with retries remaining. -/
theorem retryFailed_of_none (S : QueueState) (now₂ : Nat)
    (h : ∀ t ∈ S.tasks, isRetryable t = false) :
    handleRetryFailed S now₂ = ((0, []), S) := by
  have hfilter : S.tasks.filter isRetryable = [] :=
    List.filter_eq_nil_iff.mpr (by intro a ha; simp [h a ha])
  have hmap : S.tasks.map (fun t =>
      if isRetryable t then
        { t with status := TaskStatus.retrying, retryCount := t.retryCount + 1,
                 updatedAt := now₂ }
      else t) = S.tasks := by
    refine map_eq_self_of _ _ ?_
    intro x hx
    rw [if_neg]
    simp [h x hx]
  simp only [handleRetryFailed, hfilter, hmap, List.length_nil, List.map_nil]
  rfl

/-- After one `retryFailed`, no task is failed with retries remaining. -/
theorem retryFailed_clears (s : QueueState) (now : Nat) :
    ∀ t ∈ (handleRetryFailed s now).2.tasks, isRetryable t = false := by
  intro t ht
  simp only [handleRetryFailed, List.mem_map] at ht
  obtain ⟨x, hxmem, rfl⟩ := ht
  show isRetryable (if isRetryable x = true then
      { x with status := TaskStatus.retrying, retryCount := x.retryCount + 1,
               updatedAt := now }
    else x) = false
  by_cases hx : isRetryable x = true
  · rw [if_pos hx]; rfl
  · rw [if_neg hx]; simpa using hx

/-- C9: `retryFailed` transitions exactly the failed tasks with retries
remaining to retrying, bumping each `retryCount` and `totalRetried` by the
count, returning the count and the ids; a second immediate call returns
`retriedCount = 0` with no ids and leaves the state unchanged. -/
theorem c9_retryFailed_exact_and_idempotent (s : QueueState) (now now₂ : Nat) :
    (handleRetryFailed s now).1.1 = (s.tasks.filter isRetryable).length ∧
    (handleRetryFailed s now).1.2 = (s.tasks.filter isRetryable).map (fun t => t.id) ∧
    (handleRetryFailed s now).2.tasks = s.tasks.map (fun t =>
      if isRetryable t then
        { t with status := .retrying, retryCount := t.retryCount + 1, updatedAt := now }
      else t) ∧
    (handleRetryFailed s now).2.stats.totalRetried =
      s.stats.totalRetried + (s.tasks.filter isRetryable).length ∧
    handleRetryFailed (handleRetryFailed s now).2 now₂ = ((0, []), (handleRetryFailed s now).2) :=
  ⟨rfl, rfl, rfl, rfl, retryFailed_of_none _ now₂ (retryFailed_clears s now)⟩

/-- The derived check of an agent fails exactly when the agent is in error. -/
theorem agentCheck_fail_iff (now : Nat) (a : AgentHealth) :
    ((agentCheck now a).status == CheckStatus.fail) = (a.status == AgentStatus.error) := by
  by_cases ha : a.status = AgentStatus.error
  · simp [agentCheck, ha]
  · simp only [agentCheck]
    rw [if_neg ha]
    split
    · simp [ha]
    · simp [ha]

/-- Each agent in error contributes a failing check, so the failing-check
count dominates the error-agent count. -/
theorem errAgents_le_failChecks (kvOk d1Ok : Bool) (now : Nat) (s : CoordinatorState) :
    countErrorAgents s ≤ countChecks (runHealthChecks kvOk d1Ok now s) .fail := by
  unfold countChecks runHealthChecks
  rw [List.countP_append, List.countP_map]
  have hmap : List.countP ((fun c => c.status == CheckStatus.fail) ∘ agentCheck now) s.agents
      = countErrorAgents s := by
    refine countP_congr_on _ _ _ ?_
    intro a _
    exact agentCheck_fail_iff now a
  rw [hmap]
  exact Nat.le_add_left _ _

/-- C1: the overall health of `healthCheck` follows the aggregation truth
table — all checks passing and no error agent gives healthy; no failing check
with one warning or exactly one error agent gives degraded; any failing check
or at least two error agents gives unhealthy — where the checks include one
derived check per registered agent: fail on error status, warn on a non-idle
agent inactive for over 5 minutes, pass otherwise. -/
theorem c1_health_truth_table (kvOk d1Ok : Bool) (now : Nat) (s : CoordinatorState) :
    (countChecks (runHealthChecks kvOk d1Ok now s) .fail = 0 ∧
     countChecks (runHealthChecks kvOk d1Ok now s) .warn = 0 ∧
     countErrorAgents s = 0 →
       (handleHealthCheck kvOk d1Ok now s).1 = .healthy) ∧
    (countChecks (runHealthChecks kvOk d1Ok now s) .fail = 0 ∧
     (countChecks (runHealthChecks kvOk d1Ok now s) .warn = 1 ∨ countErrorAgents s = 1) →
       (handleHealthCheck kvOk d1Ok now s).1 = .degraded) ∧
    (0 < countChecks (runHealthChecks kvOk d1Ok now s) .fail ∨ 2 ≤ countErrorAgents s →
       (handleHealthCheck kvOk d1Ok now s).1 = .unhealthy) ∧
    (∀ a ∈ s.agents, agentCheck now a ∈ runHealthChecks kvOk d1Ok now s ∧
      (agentCheck now a).status =
        (if a.status = .error then .fail
         else if now - a.lastActivity > 300000 ∧ a.status ≠ .idle then .warn
         else .pass)) := by
  refine ⟨?_, ?_, ?_, ?_⟩
  · rintro ⟨hf, hw, he⟩
    simp only [handleHealthCheck, computeOverall]
    rw [if_neg (by omega), if_neg (by omega)]
  · rintro ⟨hf, hwe⟩
    have he0 : countErrorAgents s = 0 := by
      have := errAgents_le_failChecks kvOk d1Ok now s
      omega
    have hw1 : countChecks (runHealthChecks kvOk d1Ok now s) .warn = 1 := by
      rcases hwe with hw | he1
      · exact hw
      · omega
    simp only [handleHealthCheck, computeOverall]
    rw [if_neg (by omega), if_pos (by omega)]
  · intro hu
    simp only [handleHealthCheck, computeOverall]
    rw [if_pos (by omega)]
  · intro a ha
    constructor
    · unfold runHealthChecks
      exact List.mem_append_right _ (List.mem_map_of_mem _ ha)
    · by_cases hae : a.status = AgentStatus.error
      · simp [agentCheck, hae]
      · simp only [agentCheck]
        rw [if_neg hae, if_neg hae]
        split
        · rfl
        · rfl

/-- C1 witness: a fresh coordinator with all probes passing reports healthy. -/
theorem c1_witness :
    countChecks (runHealthChecks true true 0 (initCoordinator 0)) .fail = 0 ∧
    countChecks (runHealthChecks true true 0 (initCoordinator 0)) .warn = 0 ∧
    countErrorAgents (initCoordinator 0) = 0 ∧
    (handleHealthCheck true true 0 (initCoordinator 0)).1 = .healthy :=
  ⟨by decide, by decide, by decide,
   (c1_health_truth_table true true 0 (initCoordinator 0)).1 ⟨by decide, by decide, by decide⟩⟩

/-- No action is derived for failing checks the rule table does not match. -/
theorem deriveFromChecks_nil (idv now : Nat) (cs : List Check)
    (h : ∀ c ∈ cs, c.status ≠ CheckStatus.fail) :
    deriveFromChecks idv now cs = ([], idv) := by
  induction cs generalizing idv with
  | nil => rfl
  | cons c rest ih =>
    have hc : (c.status == CheckStatus.fail) = false := by
      simpa using h c (by simp)
    rw [deriveFromChecks, hc]
    simpa using ih _ fun x hx => h x (by simp [hx])

/-- No restart action is derived when no agent is in error. -/
theorem deriveFromAgents_nil (idv now : Nat) (as : List AgentHealth)
    (h : ∀ a ∈ as, a.status ≠ AgentStatus.error) :
    deriveFromAgents idv now as = ([], idv) := by
  induction as generalizing idv with
  | nil => rfl
  | cons a rest ih =>
    have ha : (a.status == AgentStatus.error) = false := by
      simpa using h a (by simp)
    rw [deriveFromAgents, ha]
    simpa using ih _ fun x hx => h x (by simp [hx])

/-- C10: with self-healing enabled and the breaker closed, `autoHeal` on a
snapshot with no failing check and no error agent executes no action and
returns `healed = true` with zero actions and empty results, while still
bumping the heal-attempt counter and stamping `lastHealAttempt`; and a
failing check whose name contains none of "kv", "d1", "agent" derives no
action at all. -/
theorem c10_autoHeal_noop (s : HealerState) (h : HealthSnapshot)
    (oracle : List Bool) (msg : String) (now : Nat)
    (hop : s.circuitOpen = false)
    (hc : ∀ c ∈ h.checks, c.status ≠ CheckStatus.fail)
    (ha : ∀ a ∈ h.agents, a.status ≠ AgentStatus.error) :
    handleAutoHeal true s h oracle msg now =
      (.healed 0 [], { s with healCount := s.healCount + 1, lastHealAttempt := some now }) ∧
    (∀ idv t, ∀ c : Check, c.status = CheckStatus.fail →
      strContains c.name "kv" = false → strContains c.name "d1" = false →
      strContains c.name "agent" = false → determineHealAction idv c t = none) := by
  constructor
  · simp only [handleAutoHeal, Bool.not_true, Bool.false_eq_true, if_false, hop,
      deriveFromChecks_nil s.nextId now h.checks hc,
      deriveFromAgents_nil s.nextId now h.agents ha]
    rfl
  · intro idv t c hcf hkv hd1 hag
    simp [determineHealAction, hkv, hd1, hag]

/-- C10 witness: a passing snapshot heals nothing, and a failing
"r2-storage" check derives no action. -/
theorem c10_witness :
    handleAutoHeal true initialHealerState
        { checks := [{ name := "r2-storage", status := .pass }],
          agents := [{ name := "task-queue", status := .idle, lastActivity := 0,
                       taskCount := 0, errorCount := 0 }] } [] "err" 7 =
      (.healed 0 [],
        { initialHealerState with healCount := initialHealerState.healCount + 1,
                                  lastHealAttempt := some 7 }) ∧
    determineHealAction 0 { name := "r2-storage", status := .fail } 7 = none :=
  ⟨(c10_autoHeal_noop initialHealerState _ [] "err" 7 rfl (by decide) (by decide)).1,
   (c10_autoHeal_noop initialHealerState
      { checks := [{ name := "r2-storage", status := .pass }],
        agents := [{ name := "task-queue", status := .idle, lastActivity := 0,
                     taskCount := 0, errorCount := 0 }] } [] "err" 7 rfl (by decide)
      (by decide)).2 0 7 { name := "r2-storage", status := .fail } rfl (by decide)
      (by decide) (by decide)⟩

/-- C6 (amended): `enqueue` assigns the fresh id, defaults status to pending,
zeroes `retryCount`, stamps both timestamps with now, appends the task and
bumps `totalEnqueued`; the requested priority is honoured only when nonzero
(JavaScript `|| 5` treats 0 as unset), and likewise a requested
`maxRetries` of 0 falls back to the configured default.  It never fails. -/
theorem c6_enqueue_defaults (cfg : Config) (s : QueueState) (body : EnqueueBody) (now : Nat) :
    (handleEnqueue cfg s body now).1.id = s.nextId ∧
    (handleEnqueue cfg s body now).2.nextId = s.nextId + 1 ∧
    ((∀ t ∈ s.tasks, t.id < s.nextId) →
      ∀ t ∈ s.tasks, t.id ≠ (handleEnqueue cfg s body now).1.id) ∧
    (handleEnqueue cfg s body now).1.status = .pending ∧
    (handleEnqueue cfg s body now).1.retryCount = 0 ∧
    (handleEnqueue cfg s body now).1.createdAt = now ∧
    (handleEnqueue cfg s body now).1.updatedAt = now ∧
    (∀ p, body.priority = some p → p ≠ 0 → (handleEnqueue cfg s body now).1.priority = p) ∧
    ((body.priority = none ∨ body.priority = some 0) →
      (handleEnqueue cfg s body now).1.priority = 5) ∧
    (∀ m, body.maxRetries = some m → m ≠ 0 →
      (handleEnqueue cfg s body now).1.maxRetries = m) ∧
    ((body.maxRetries = none ∨ body.maxRetries = some 0) →
      (handleEnqueue cfg s body now).1.maxRetries = defaultMaxRetries cfg) ∧
    (handleEnqueue cfg s body now).2.tasks = s.tasks ++ [(handleEnqueue cfg s body now).1] ∧
    (handleEnqueue cfg s body now).2.stats.totalEnqueued = s.stats.totalEnqueued + 1 := by
  refine ⟨rfl, rfl, ?_, rfl, rfl, rfl, rfl, ?_, ?_, ?_, ?_, rfl, rfl⟩
  · intro hlt t ht
    have := hlt t ht
    show t.id ≠ s.nextId
    omega
  · intro p hp hne
    simp [handleEnqueue, jsOrInt, hp, hne]
  · rintro (hp | hp) <;> simp [handleEnqueue, jsOrInt, hp]
  · intro m hm hne
    simp [handleEnqueue, jsOrNat, hm, hne]
  · rintro (hm | hm) <;> simp [handleEnqueue, jsOrNat, hm]

/-- C6 counterexample: a request that sets priority 0 gets priority 5, not
the requested priority — `body.priority || 5` treats 0 as unset. -/
theorem c6_counterexample :
    (handleEnqueue cfgA initialQueueState { priority := some 0 } 0).1.priority = 5 ∧
    ¬ (handleEnqueue cfgA initialQueueState { priority := some 0 } 0).1.priority = 0 :=
  ⟨by decide, by decide⟩

/-- C6 witness: a nonzero requested priority and maxRetries are honoured and
the defaults are applied. -/
theorem c6_witness :
    (handleEnqueue cfgA initialQueueState { priority := some 3, maxRetries := some 2 } 4).1.priority = 3 ∧
    (handleEnqueue cfgA initialQueueState { priority := some 3, maxRetries := some 2 } 4).1.maxRetries = 2 ∧
    (handleEnqueue cfgA initialQueueState { priority := some 7 } 4).1.maxRetries = defaultMaxRetries cfgA :=
  ⟨(c6_enqueue_defaults cfgA initialQueueState
      { priority := some 3, maxRetries := some 2 } 4).2.2.2.2.2.2.2.1 3 rfl (by decide),
   (c6_enqueue_defaults cfgA initialQueueState
      { priority := some 3, maxRetries := some 2 } 4).2.2.2.2.2.2.2.2.2.1 2 rfl (by decide),
   (c6_enqueue_defaults cfgA initialQueueState
      { priority := some 7 } 4).2.2.2.2.2.2.2.2.2.2.1 (Or.inl rfl)⟩

/-- `findAgent` commutes with a name-preserving registry map. -/
theorem findAgent_map_namePres (s : CoordinatorState) (name : String)
    (f : AgentHealth → AgentHealth) (hf : ∀ a, (f a).name = a.name) :
    findAgent { s with agents := s.agents.map f } name = (findAgent s name).map f := by
  show (s.agents.map f).find? (fun a => a.name == name)
      = (s.agents.find? (fun a => a.name == name)).map f
  refine find_map_keyPres _ _ _ ?_
  intro a
  show ((f a).name == name) = (a.name == name)
  rw [hf]

/-- C8 (amended): on a `statusUpdate` for a known agent, `lastActivity` is
set to now and `errorCount` is bumped exactly when the reported status is
`error` — regardless of the previous status, so a repeated error report also
bumps it; `triggerAgent` on a known routable agent sets status active,
`lastActivity = now` and bumps `taskCount`, while a known but non-routable
agent gets a 400 and the registry is untouched. -/
theorem c8_errorCount_and_lastActivity (s : CoordinatorState) (name : String)
    (st : AgentStatus) (now now₂ : Nat) (a₀ : AgentHealth)
    (hfind : findAgent s name = some a₀) :
    (∃ s', handleStatusUpdate s name st now = some
        ({ a₀ with
            status := st
            lastActivity := now
            errorCount := a₀.errorCount + (if st = .error then 1 else 0) }, s') ∧
      findAgent s' name = some
        { a₀ with
          status := st
          lastActivity := now
          errorCount := a₀.errorCount + (if st = .error then 1 else 0) }) ∧
    (triggerableNames.contains name = true →
      (handleTriggerAgent s name now₂).1 = .triggered ∧
      findAgent (handleTriggerAgent s name now₂).2 name = some
        { a₀ with
          status := .active
          lastActivity := now₂
          taskCount := a₀.taskCount + 1 }) ∧
    (triggerableNames.contains name = false →
      handleTriggerAgent s name now₂ = (.notTriggerable, s)) := by
  have hfind' : s.agents.find? (fun a => a.name == name) = some a₀ := hfind
  have hpa0 := List.find?_some hfind'
  have hpa : (a₀.name == name) = true := hpa0
  refine ⟨?_, ?_, ?_⟩
  · refine ⟨{ s with agents := s.agents.map (fun a =>
        if a.name == name then
          { a with
            status := st
            lastActivity := now
            errorCount := a.errorCount + (if st = .error then 1 else 0) }
        else a) }, ?_, ?_⟩
    · simp only [handleStatusUpdate, hfind, hpa, if_true]
    · rw [findAgent_map_namePres s name _ (by intro a; split <;> rfl), hfind,
        Option.map_some']
      show some (if (a₀.name == name) = true then
          { a₀ with
            status := st
            lastActivity := now
            errorCount := a₀.errorCount + (if st = .error then 1 else 0) }
        else a₀) = _
      rw [if_pos hpa]
  · intro htr
    refine ⟨?_, ?_⟩
    · simp only [handleTriggerAgent, hfind, htr, if_true]
    · have hstate : (handleTriggerAgent s name now₂).2 =
          { s with agents := s.agents.map (fun a =>
              if a.name == name then
                { a with
                  status := .active
                  lastActivity := now₂
                  taskCount := a.taskCount + 1 }
              else a) } := by
        simp only [handleTriggerAgent, hfind, htr, if_true]
      rw [hstate, findAgent_map_namePres s name _ (by intro a; split <;> rfl), hfind,
        Option.map_some']
      show some (if (a₀.name == name) = true then
          { a₀ with
            status := AgentStatus.active
            lastActivity := now₂
            taskCount := a₀.taskCount + 1 }
        else a₀) = _
      rw [if_pos hpa]
  · intro hntr
    simp only [handleTriggerAgent, hfind, hntr, Bool.false_eq_true, if_false]

/-- C8 counterexample: a second consecutive `error` report for the same agent
bumps `errorCount` from 1 to 2; the claim says a report that is not a
transition into error must not bump it. -/
theorem c8_counterexample :
    (findAgent coordErr1 "repo-scraper").map (fun a => a.errorCount) = some 1 ∧
    (findAgent coordErr2 "repo-scraper").map (fun a => a.errorCount) = some 2 ∧
    ¬ (findAgent coordErr2 "repo-scraper").map (fun a => a.errorCount) = some 1 :=
  ⟨by decide, by decide, by decide⟩

/-- C8 witness: triggering the task-queue agent of a fresh coordinator makes
it active with `taskCount` 1 and `lastActivity` stamped. -/
theorem c8_witness :
    (handleTriggerAgent (initCoordinator 0) "task-queue" 6).1 = .triggered ∧
    findAgent (handleTriggerAgent (initCoordinator 0) "task-queue" 6).2 "task-queue" =
      some { name := "task-queue", status := .active, lastActivity := 6,
             taskCount := 1, errorCount := 0 } :=
  (c8_errorCount_and_lastActivity (initCoordinator 0) "task-queue" .active 5 6
    { name := "task-queue", status := .idle, lastActivity := 0, taskCount := 0,
      errorCount := 0 } (by decide)).2.1 (by decide)

/-- C4: once the breaker is open, a `status()` call with elapsed time
strictly below the reset window leaves it open; `status()` closes it only
once the elapsed time reaches the window (the source requires strictly more
than 60000 ms), and then also zeroes `consecutiveFailures` and clears
`circuitOpenedAt`; `resetCircuit()` force-closes it; and neither
`manualTrigger` nor `autoHeal` ever closes an open breaker. -/
theorem c4_breaker_reset_only_lazily (s : HealerState) (t now : Nat) (k : HealKind)
    (tgt : String) (reason : Option String) (dOk : Bool) (msg : String)
    (enabled : Bool) (h : HealthSnapshot) (oracle : List Bool) :
    (s.circuitOpen = true → s.circuitOpenedAt = some t → now - t < circuitResetMs →
      handleStatus s now = s) ∧
    (s.circuitOpen = true → s.circuitOpenedAt = some t →
      (handleStatus s now).circuitOpen = false → circuitResetMs ≤ now - t) ∧
    (s.circuitOpen = true → s.circuitOpenedAt = some t → circuitResetMs < now - t →
      handleStatus s now =
        { s with circuitOpen := false, circuitOpenedAt := none,
                 consecutiveFailures := 0 }) ∧
    (handleResetCircuit s =
      { s with circuitOpen := false, circuitOpenedAt := none,
               consecutiveFailures := 0 }) ∧
    (s.circuitOpen = true → (handleManualTrigger s k tgt reason dOk msg now).2 = s) ∧
    (s.circuitOpen = true → (handleAutoHeal enabled s h oracle msg now).2 = s) := by
  refine ⟨?_, ?_, ?_, rfl, ?_, ?_⟩
  · intro hop hat hlt
    simp only [handleStatus, hop, hat, if_true]
    rw [if_neg (by omega)]
  · intro hop hat hcl
    by_cases hgt : circuitResetMs < now - t
    · omega
    · exfalso
      rw [show handleStatus s now = s by
        simp only [handleStatus, hop, hat, if_true]
        rw [if_neg (by omega)]] at hcl
      rw [hop] at hcl
      exact Bool.true_eq_false ▸ hcl
  · intro hop hat hgt
    simp only [handleStatus, hop, hat, if_true]
    rw [if_pos (by omega)]
  · intro hop
    simp only [handleManualTrigger, hop, if_true]
  · intro hop
    cases enabled with
    | false => simp [handleAutoHeal]
    | true => simp only [handleAutoHeal, hop, Bool.not_true, Bool.false_eq_true,
        if_false, if_true]

/-- C4 witness: at 50 s the open breaker survives a `status()` call; at 170 s
the same call closes and clears it; `resetCircuit` closes it immediately. -/
theorem c4_witness :
    handleStatus sOpen 50100 = sOpen ∧
    handleStatus sOpen 170000 =
      { sOpen with circuitOpen := false, circuitOpenedAt := none,
                   consecutiveFailures := 0 } ∧
    handleResetCircuit sOpen =
      { sOpen with circuitOpen := false, circuitOpenedAt := none,
                   consecutiveFailures := 0 } ∧
    (handleManualTrigger sOpen .restart "task-queue" none true "m" 101).2 = sOpen :=
  ⟨(c4_breaker_reset_only_lazily sOpen 100 50100 .restart "task-queue" none true "m"
      true ⟨[], []⟩ []).1 rfl rfl (by decide),
   (c4_breaker_reset_only_lazily sOpen 100 170000 .restart "task-queue" none true "m"
      true ⟨[], []⟩ []).2.2.1 rfl rfl (by decide),
   (c4_breaker_reset_only_lazily sOpen 100 170000 .restart "task-queue" none true "m"
      true ⟨[], []⟩ []).2.2.2.1,
   (c4_breaker_reset_only_lazily sOpen 100 101 .restart "task-queue" none true "m"
      true ⟨[], []⟩ []).2.2.2.2.1 rfl⟩

/-- Closed form of one failing manual trigger on a closed breaker: the fresh
action is created, executed and recorded as failed with the thrown message,
`consecutiveFailures` is bumped, and the breaker opens exactly when the bump
reaches the threshold. -/
theorem manualTrigger_fail_closed (s : HealerState) (k : HealKind) (tgt msg : String)
    (reason : Option String) (now : Nat) (hk : (k == HealKind.scale) = false)
    (hopen : s.circuitOpen = false) :
    handleManualTrigger s k tgt reason false msg now =
      (.acted
        { id := s.nextId
          trigger := jsOrStr reason "manual"
          kind := k
          target := tgt
          status := .failed
          createdAt := now
          executedAt := some now
          result := some msg },
       if s.consecutiveFailures + 1 ≥ circuitThreshold then
         { s with
           nextId := s.nextId + 1
           actions := putAction s.actions
             { id := s.nextId
               trigger := jsOrStr reason "manual"
               kind := k
               target := tgt
               status := .failed
               createdAt := now
               executedAt := some now
               result := some msg }
           consecutiveFailures := s.consecutiveFailures + 1
           circuitOpen := true
           circuitOpenedAt := some now }
       else
         { s with
           nextId := s.nextId + 1
           actions := putAction s.actions
             { id := s.nextId
               trigger := jsOrStr reason "manual"
               kind := k
               target := tgt
               status := .failed
               createdAt := now
               executedAt := some now
               result := some msg }
           consecutiveFailures := s.consecutiveFailures + 1 }) := by
  simp only [handleManualTrigger, hopen, Bool.false_eq_true, if_false,
    executeHealAction, hk, Bool.false_or]

/-- C3: starting from a closed breaker, each failing execution bumps
`consecutiveFailures`, marks the action failed with the error message as its
result, and flips the breaker open (stamping `circuitOpenedAt`) exactly when
the bump reaches the threshold 5 — so from `consecutiveFailures = 0` the
first four failing triggers leave the breaker closed and precisely the 5th
opens it; a single successful execution resets `consecutiveFailures` to 0;
and a manual trigger while open returns CircuitOpen carrying
`circuitOpenedAt + 60000` without touching the state or creating an action. -/
theorem c3_circuit_opens_on_fifth_failure (s : HealerState) (k : HealKind)
    (tgt msg : String) (reason : Option String) (now t : Nat)
    (hk : (k == HealKind.scale) = false) :
    (s.circuitOpen = false →
      (handleManualTrigger s k tgt reason false msg now).2.consecutiveFailures
          = s.consecutiveFailures + 1 ∧
      (handleManualTrigger s k tgt reason false msg now).1 =
        .acted { id := s.nextId, trigger := jsOrStr reason "manual", kind := k,
                 target := tgt, status := .failed, createdAt := now,
                 executedAt := some now, result := some msg } ∧
      (handleManualTrigger s k tgt reason false msg now).2.circuitOpen
          = decide (circuitThreshold ≤ s.consecutiveFailures + 1) ∧
      (circuitThreshold ≤ s.consecutiveFailures + 1 →
        (handleManualTrigger s k tgt reason false msg now).2.circuitOpenedAt = some now) ∧
      (s.consecutiveFailures + 1 < circuitThreshold →
        (handleManualTrigger s k tgt reason false msg now).2.circuitOpenedAt
            = s.circuitOpenedAt)) ∧
    (s.circuitOpen = false →
      (handleManualTrigger s k tgt reason true msg now).2.consecutiveFailures = 0) ∧
    (s.circuitOpen = true → s.circuitOpenedAt = some t →
      handleManualTrigger s k tgt reason false msg now =
        (.circuitOpenErr (t + circuitResetMs), s)) ∧
    (s.circuitOpen = false → s.consecutiveFailures = 0 →
      ∀ n, n ≤ 5 →
        ((failTrigStep k tgt msg now)^[n] s).consecutiveFailures = n ∧
        ((failTrigStep k tgt msg now)^[n] s).circuitOpen = decide (n = 5) ∧
        ((failTrigStep k tgt msg now)^[n] s).circuitOpenedAt =
          (if n = 5 then some now else s.circuitOpenedAt)) := by
  refine ⟨?_, ?_, ?_, ?_⟩
  · intro hopen
    rw [manualTrigger_fail_closed s k tgt msg reason now hk hopen]
    by_cases hth : s.consecutiveFailures + 1 ≥ circuitThreshold
    · refine ⟨by rw [if_pos hth], rfl, ?_, fun _ => by rw [if_pos hth], fun hlt => ?_⟩
      · rw [if_pos hth]
        show true = decide (circuitThreshold ≤ s.consecutiveFailures + 1)
        simp [hth]
      · exfalso
        unfold circuitThreshold at hth hlt
        omega
    · refine ⟨by rw [if_neg hth], rfl, ?_, fun hge => absurd hge hth, fun _ => ?_⟩
      · rw [if_neg hth]
        show s.circuitOpen = decide (circuitThreshold ≤ s.consecutiveFailures + 1)
        rw [hopen]
        simp [hth]
      · rw [if_neg hth]
  · intro hopen
    simp only [handleManualTrigger, hopen, Bool.false_eq_true, if_false]
    rfl
  · intro hopen hat
    simp only [handleManualTrigger, hopen, if_true, hat, Option.getD_some]
  · intro hopen hcf n
    induction n with
    | zero =>
      intro _
      simp [Function.iterate_zero_apply, hcf, hopen]
    | succ m ih =>
      intro hm5
      obtain ⟨hcfm, hopm, hoam⟩ := ih (by omega)
      have hopen_m : ((failTrigStep k tgt msg now)^[m] s).circuitOpen = false := by
        rw [hopm]
        simp only [decide_eq_false_iff_not]
        omega
      rw [Function.iterate_succ_apply']
      have hstep2 : (failTrigStep k tgt msg now) ((failTrigStep k tgt msg now)^[m] s)
          = ((handleManualTrigger ((failTrigStep k tgt msg now)^[m] s)
              k tgt none false msg now).2) := rfl
      rw [hstep2, manualTrigger_fail_closed ((failTrigStep k tgt msg now)^[m] s)
        k tgt msg none now hk hopen_m, hcfm]
      by_cases h5 : m + 1 = 5
      · rw [if_pos (by unfold circuitThreshold; omega)]
        refine ⟨rfl, ?_, ?_⟩
        · show true = decide (m + 1 = 5)
          simp [h5]
        · show some now = (if m + 1 = 5 then some now else s.circuitOpenedAt)
          rw [if_pos h5]
      · rw [if_neg (by unfold circuitThreshold; omega)]
        refine ⟨rfl, ?_, ?_⟩
        · show ((failTrigStep k tgt msg now)^[m] s).circuitOpen = decide (m + 1 = 5)
          rw [hopen_m]
          simp [h5]
        · show ((failTrigStep k tgt msg now)^[m] s).circuitOpenedAt
              = (if m + 1 = 5 then some now else s.circuitOpenedAt)
          rw [hoam, if_neg (show ¬ m = 5 by omega), if_neg h5]

/-- C3 witness: five failing restarts from a fresh healer leave
`consecutiveFailures = 5`, the breaker open and `circuitOpenedAt` stamped. -/
theorem c3_witness :
    ((failTrigStep .restart "task-queue" "boom" 9)^[5] initialHealerState).consecutiveFailures = 5 ∧
    ((failTrigStep .restart "task-queue" "boom" 9)^[5] initialHealerState).circuitOpen = true ∧
    ((failTrigStep .restart "task-queue" "boom" 9)^[5] initialHealerState).circuitOpenedAt = some 9 :=
  (c3_circuit_opens_on_fifth_failure initialHealerState .restart "task-queue" "boom"
    none 9 0 rfl).2.2.2 rfl rfl 5 (by omega)

/-- `addProc` preserves the no-duplicates property of the in-flight set. -/
theorem addProc_nodup (l : List Nat) (i : Nat) (h : l.Nodup) : (addProc l i).Nodup := by
  unfold addProc
  split
  · exact h
  · rename_i hc
    refine List.nodup_cons.mpr ⟨?_, h⟩
    simpa using hc

/-- Adding an id to a duplicate-free in-flight set and erasing it again
leaves the id absent. -/
theorem notMem_addProc_erase (l : List Nat) (i : Nat) (h : l.Nodup) :
    i ∉ (addProc l i).erase i := by
  intro hmem
  rw [List.Nodup.mem_erase_iff (addProc_nodup l i h)] at hmem
  exact hmem.1 rfl

/-- C2 (amended): when the handler of the selected task throws during
`processNext`, the task leaves the in-flight set and the same retry rule as
`updateTask` is applied to the task record (status retrying, `retryCount`
and `totalRetried` bumped while retries remain) — but, unlike the failed
path of `updateTask`, `totalFailed` is bumped only once retries are
exhausted, and no backoff wake-up is scheduled, whereas `updateTask`'s
failed path always bumps `totalFailed` and schedules the wake-up at
`now + backoffBase * 2^retryCount` when it retries. -/
theorem c2_processNext_failure_path (cfg : Config) (s : QueueState) (msg : String)
    (now : Nat) (sel : Task)
    (hsel : selectMin (s.tasks.filter isCandidate) = some sel)
    (hnd : s.processing.Nodup) :
    sel.id ∉ (handleProcessNext s false msg now).2.processing ∧
    (sel.retryCount < sel.maxRetries →
      (handleProcessNext s false msg now).1 =
        some { sel with
               status := .retrying
               retryCount := sel.retryCount + 1
               error := some msg
               updatedAt := now } ∧
      (handleProcessNext s false msg now).2.stats.totalRetried = s.stats.totalRetried + 1 ∧
      (handleProcessNext s false msg now).2.stats.totalFailed = s.stats.totalFailed ∧
      (handleProcessNext s false msg now).2.alarm = s.alarm) ∧
    (sel.maxRetries ≤ sel.retryCount →
      (handleProcessNext s false msg now).1 =
        some { sel with status := .failed, error := some msg, updatedAt := now } ∧
      (handleProcessNext s false msg now).2.stats.totalFailed = s.stats.totalFailed + 1 ∧
      (handleProcessNext s false msg now).2.stats.totalRetried = s.stats.totalRetried ∧
      (handleProcessNext s false msg now).2.alarm = s.alarm) ∧
    (∀ i u t₀ r s', u.status = some TaskStatus.failed →
      getTask? s i = some t₀ →
      handleUpdateTask cfg s i u now = some (r, s') →
      s'.stats.totalFailed = s.stats.totalFailed + 1 ∧
      ((mergeTask u now t₀).retryCount < (mergeTask u now t₀).maxRetries →
        s'.alarm = some (now + cfg.retryBackoffMs * 2 ^ ((mergeTask u now t₀).retryCount + 1)))) := by
  refine ⟨?_, ?_, ?_, ?_⟩
  · simp only [handleProcessNext, hsel, Bool.false_eq_true, if_false]
    exact notMem_addProc_erase s.processing sel.id hnd
  · intro h
    refine ⟨?_, ?_, ?_, ?_⟩
    · simp only [handleProcessNext, hsel, Bool.false_eq_true, if_false]
      unfold procFail
      rw [if_pos h]
    · simp only [handleProcessNext, hsel, Bool.false_eq_true, if_false]
      rw [if_pos h]
    · simp only [handleProcessNext, hsel, Bool.false_eq_true, if_false]
      rw [if_pos h]
    · simp only [handleProcessNext, hsel, Bool.false_eq_true, if_false]
  · intro h
    have h' : ¬ sel.retryCount < sel.maxRetries := by omega
    refine ⟨?_, ?_, ?_, ?_⟩
    · simp only [handleProcessNext, hsel, Bool.false_eq_true, if_false]
      unfold procFail
      rw [if_neg h']
    · simp only [handleProcessNext, hsel, Bool.false_eq_true, if_false]
      rw [if_neg h']
    · simp only [handleProcessNext, hsel, Bool.false_eq_true, if_false]
      rw [if_neg h']
    · simp only [handleProcessNext, hsel, Bool.false_eq_true, if_false]
  · intro i u t₀ r s' hu hfind hupd
    have hfind2 : s.tasks.find? (fun x => x.id == i) = some t₀ := hfind
    simp only [handleUpdateTask, hfind2, hu] at hupd
    rw [Option.some.injEq, Prod.mk.injEq] at hupd
    obtain ⟨-, hs'⟩ := hupd
    subst hs'
    constructor
    · by_cases hm : (mergeTask u now t₀).retryCount < (mergeTask u now t₀).maxRetries
      · rw [if_pos hm]
      · rw [if_neg hm]
    · intro hm
      rw [if_pos hm]

/-- C2 counterexample: after enqueueing one default task, a `processNext`
whose handler throws leaves `totalFailed = 0` and schedules no alarm, while
PATCHing the same task running and then failed (the `updateTask` path) sets
`totalFailed = 1` and an alarm at 2000 — the two paths agree on the task's
own record but not on the counters or the wake-up, so they are not
identical. -/
theorem c2_counterexample :
    q1procFailed.stats.totalFailed = 0 ∧
    q1updFailed.stats.totalFailed = 1 ∧
    q1procFailed.alarm = none ∧
    q1updFailed.alarm = some 2000 ∧
    (getTask? q1procFailed 0).map (fun t => (t.status, t.retryCount)) =
      some (.retrying, 1) ∧
    (getTask? q1updFailed 0).map (fun t => (t.status, t.retryCount)) =
      some (.retrying, 1) :=
  ⟨by decide, by decide, by decide, by decide, by decide, by decide⟩

/-- C2 witness: the failure path on the freshly enqueued task retries it
without bumping `totalFailed` or scheduling an alarm. -/
theorem c2_witness :
    (handleProcessNext q1 false "boom" 0).1 =
      some { id := 0, kind := "health_check", status := .retrying, priority := 5,
             retryCount := 1, maxRetries := 5, createdAt := 0, updatedAt := 0,
             completedAt := none, error := some "boom" } ∧
    (handleProcessNext q1 false "boom" 0).2.stats.totalRetried = q1.stats.totalRetried + 1 ∧
    (handleProcessNext q1 false "boom" 0).2.stats.totalFailed = q1.stats.totalFailed ∧
    (handleProcessNext q1 false "boom" 0).2.alarm = q1.alarm :=
  (c2_processNext_failure_path cfgA q1 "boom" 0
    { id := 0, kind := "health_check", status := .pending, priority := 5,
      retryCount := 0, maxRetries := 5, createdAt := 0, updatedAt := 0 }
    (by decide) (by decide)).2.1 (by decide)

/-- A merge that does not touch `retryCount` keeps it. -/
theorem mergeTask_rc (u : TaskUpdate) (now : Nat) (t : Task)
    (h : u.retryCount = none) : (mergeTask u now t).retryCount = t.retryCount := by
  simp [mergeTask, h]

/-- A merge that does not touch `maxRetries` keeps it. -/
theorem mergeTask_mr (u : TaskUpdate) (now : Nat) (t : Task)
    (h : u.maxRetries = none) : (mergeTask u now t).maxRetries = t.maxRetries := by
  simp [mergeTask, h]

/-- The three possible outcomes of the per-task effect of `updateTask`:
plain merge, merge plus `completedAt`, or the retry override. -/
theorem applyUpd_cases (u : TaskUpdate) (now : Nat) (t : Task) :
    applyUpd u now t = mergeTask u now t ∨
    applyUpd u now t = { mergeTask u now t with completedAt := some now } ∨
    ((mergeTask u now t).retryCount < (mergeTask u now t).maxRetries ∧
      applyUpd u now t = { mergeTask u now t with
        status := TaskStatus.retrying
        retryCount := (mergeTask u now t).retryCount + 1 }) := by
  cases hus : u.status with
  | none => exact Or.inl (by simp only [applyUpd, hus])
  | some st =>
    cases st with
    | completed => exact Or.inr (Or.inl (by simp only [applyUpd, hus]))
    | failed =>
      by_cases hm : (mergeTask u now t).retryCount < (mergeTask u now t).maxRetries
      · refine Or.inr (Or.inr ⟨hm, ?_⟩)
        simp only [applyUpd, hus]
        rw [if_pos hm]
      · refine Or.inl ?_
        simp only [applyUpd, hus]
        rw [if_neg hm]
    | pending => exact Or.inl (by simp only [applyUpd, hus])
    | queued => exact Or.inl (by simp only [applyUpd, hus])
    | running => exact Or.inl (by simp only [applyUpd, hus])
    | retrying => exact Or.inl (by simp only [applyUpd, hus])
    | cancelled => exact Or.inl (by simp only [applyUpd, hus])

/-- `applyUpd` never changes the task id. -/
theorem applyUpd_id (u : TaskUpdate) (now : Nat) (t : Task) :
    (applyUpd u now t).id = t.id := by
  rcases applyUpd_cases u now t with h | h | ⟨-, h⟩ <;> rw [h] <;> rfl

/-- When the update does not set `retryCount`, `applyUpd` never decreases it. -/
theorem applyUpd_rc_mono (u : TaskUpdate) (now : Nat) (t : Task)
    (hu1 : u.retryCount = none) :
    t.retryCount ≤ (applyUpd u now t).retryCount := by
  rcases applyUpd_cases u now t with h | h | ⟨-, h⟩
  · rw [h, mergeTask_rc u now t hu1]
  · rw [h]
    show t.retryCount ≤ (mergeTask u now t).retryCount
    rw [mergeTask_rc u now t hu1]
  · rw [h]
    show t.retryCount ≤ (mergeTask u now t).retryCount + 1
    rw [mergeTask_rc u now t hu1]
    omega

/-- When the update sets neither `retryCount` nor `maxRetries`, `applyUpd`
preserves the bound `retryCount ≤ maxRetries`. -/
theorem applyUpd_rc_le (u : TaskUpdate) (now : Nat) (t : Task)
    (hu1 : u.retryCount = none) (hu2 : u.maxRetries = none)
    (hle : t.retryCount ≤ t.maxRetries) :
    (applyUpd u now t).retryCount ≤ (applyUpd u now t).maxRetries := by
  rcases applyUpd_cases u now t with h | h | ⟨hm, h⟩
  · rw [h, mergeTask_rc u now t hu1, mergeTask_mr u now t hu2]
    exact hle
  · rw [h]
    show (mergeTask u now t).retryCount ≤ (mergeTask u now t).maxRetries
    rw [mergeTask_rc u now t hu1, mergeTask_mr u now t hu2]
    exact hle
  · rw [h]
    show (mergeTask u now t).retryCount + 1 ≤ (mergeTask u now t).maxRetries
    rw [mergeTask_rc u now t hu1, mergeTask_mr u now t hu2]
    rw [mergeTask_rc u now t hu1, mergeTask_mr u now t hu2] at hm
    omega

/-- When the update sets neither `retryCount` nor `maxRetries` nor requests
the `retrying` status, `applyUpd` never moves a failed task with exhausted
retries into `retrying`. -/
theorem applyUpd_no_retry (u : TaskUpdate) (now : Nat) (t : Task)
    (hu1 : u.retryCount = none) (hu2 : u.maxRetries = none)
    (hsr : (u.status == some TaskStatus.retrying) = false)
    (hf : t.status = TaskStatus.failed) (hrc : t.retryCount = t.maxRetries) :
    (applyUpd u now t).status ≠ TaskStatus.retrying := by
  have hgetD : u.status.getD t.status ≠ TaskStatus.retrying := by
    cases hus : u.status with
    | none =>
      simp only [Option.getD_none]
      rw [hf]
      exact fun hcon => TaskStatus.noConfusion hcon
    | some st =>
      simp only [Option.getD_some]
      intro hcon
      rw [hus, hcon] at hsr
      simp at hsr
  rcases applyUpd_cases u now t with h | h | ⟨hm, h⟩
  · rw [h]
    show (mergeTask u now t).status ≠ TaskStatus.retrying
    exact hgetD
  · rw [h]
    show (mergeTask u now t).status ≠ TaskStatus.retrying
    exact hgetD
  · exfalso
    rw [mergeTask_rc u now t hu1, mergeTask_mr u now t hu2] at hm
    omega

/-- Whatever the requested status, a successful `updateTask` maps exactly the
targeted id through `applyUpd` and leaves every other task untouched. -/
theorem updateTask_tasks (cfg : Config) (s : QueueState) (j : Nat) (u : TaskUpdate)
    (now : Nat) (t₀ : Task)
    (hfind : s.tasks.find? (fun x => x.id == j) = some t₀) :
    ∀ r s', handleUpdateTask cfg s j u now = some (r, s') →
      s'.tasks = s.tasks.map (fun t => if t.id == j then applyUpd u now t else t) := by
  intro r s' h
  simp only [handleUpdateTask, hfind] at h
  cases hus : u.status with
  | none =>
    rw [hus] at h
    simp only [Option.some.injEq, Prod.mk.injEq] at h
    rw [← h.2]
  | some st =>
    rw [hus] at h
    cases st <;>
      (simp only [Option.some.injEq, Prod.mk.injEq] at h
       rw [← h.2]
       try split <;> rfl)

/-- Every queue operation either appends fresh zero-retry tasks or rewrites
the task list pointwise through an id-preserving, retry-monotone,
bound-preserving function that never silently re-enters `retrying`. -/
theorem step_shape (cfg : Config) (s : QueueState) (op : QOp)
    (hop : goodOp op = true) :
    (∃ ts, (stepOp cfg s op).tasks = s.tasks ++ ts ∧ ∀ x ∈ ts, x.retryCount = 0) ∨
    (∃ pf : Task → Task,
      (stepOp cfg s op).tasks = s.tasks.map pf ∧
      (∀ x, (pf x).id = x.id) ∧
      (∀ x, x.retryCount ≤ (pf x).retryCount) ∧
      (∀ x, x.retryCount ≤ x.maxRetries → (pf x).retryCount ≤ (pf x).maxRetries) ∧
      (setsRetrying op = false → ∀ x, x.status = TaskStatus.failed →
        x.retryCount = x.maxRetries → (pf x).status ≠ TaskStatus.retrying)) := by
  cases op with
  | enq body now =>
    refine Or.inl ⟨[(handleEnqueue cfg s body now).1], rfl, ?_⟩
    intro x hx
    rw [List.mem_singleton] at hx
    subst hx
    rfl
  | upd j u now =>
    have hu12 : u.retryCount = none ∧ u.maxRetries = none := by
      simp only [goodOp, Bool.and_eq_true, Option.isNone_iff_eq_none] at hop
      exact hop
    refine Or.inr ⟨fun t => if t.id == j then applyUpd u now t else t, ?_, ?_, ?_, ?_, ?_⟩
    · cases hcall : handleUpdateTask cfg s j u now with
      | none =>
        simp only [stepOp, hcall]
        cases hfind : s.tasks.find? (fun x => x.id == j) with
        | none =>
          have hmap : s.tasks.map (fun t => if t.id == j then applyUpd u now t else t)
              = s.tasks := by
            refine map_eq_self_of _ _ ?_
            intro x hx
            rw [if_neg]
            intro hx2
            have hsome : (s.tasks.find? (fun t => t.id == j)).isSome = true := by
              rw [List.find?_isSome]
              exact ⟨x, hx, hx2⟩
            rw [hfind] at hsome
            simp at hsome
          rw [hmap]
        | some t₀ =>
          exfalso
          simp only [handleUpdateTask, hfind] at hcall
          cases hus : u.status with
          | none => rw [hus] at hcall; simp at hcall
          | some st => rw [hus] at hcall; cases st <;> simp at hcall
      | some rs =>
        obtain ⟨r, s'⟩ := rs
        simp only [stepOp, hcall]
        cases hfind : s.tasks.find? (fun x => x.id == j) with
        | none =>
          exfalso
          simp only [handleUpdateTask, hfind] at hcall
          exact Option.noConfusion hcall
        | some t₀ =>
          exact updateTask_tasks cfg s j u now t₀ hfind r s' hcall
    · intro x
      dsimp only
      by_cases hx : (x.id == j) = true
      · rw [if_pos hx, applyUpd_id]
      · rw [if_neg hx]
    · intro x
      dsimp only
      by_cases hx : (x.id == j) = true
      · rw [if_pos hx]
        exact applyUpd_rc_mono u now x hu12.1
      · rw [if_neg hx]
    · intro x hle
      dsimp only
      by_cases hx : (x.id == j) = true
      · rw [if_pos hx]
        exact applyUpd_rc_le u now x hu12.1 hu12.2 hle
      · rw [if_neg hx]
        exact hle
    · intro hsr x hf hrc
      dsimp only
      have hsr' : (u.status == some TaskStatus.retrying) = false := by
        simpa only [setsRetrying] using hsr
      by_cases hx : (x.id == j) = true
      · rw [if_pos hx]
        exact applyUpd_no_retry u now x hu12.1 hu12.2 hsr' hf hrc
      · rw [if_neg hx]
        rw [hf]
        exact fun hcon => TaskStatus.noConfusion hcon
  | proc ok msg now =>
    cases hsel : selectMin (s.tasks.filter isCandidate) with
    | none =>
      refine Or.inr ⟨fun t => t, ?_, fun x => rfl, fun x => le_refl _,
        fun x hle => hle, ?_⟩
      · simp only [stepOp, handleProcessNext, hsel]
        rw [map_eq_self_of _ _ (fun x _ => rfl)]
      · intro _ x hf _
        rw [hf]
        exact fun hcon => TaskStatus.noConfusion hcon
    | some sel =>
      cases ok with
      | true =>
        refine Or.inr ⟨fun t => if t.id == sel.id then procDone now t else t,
          ?_, ?_, ?_, ?_, ?_⟩
        · simp only [stepOp, handleProcessNext, hsel]
          rfl
        · intro x
          dsimp only
          by_cases hx : (x.id == sel.id) = true
          · rw [if_pos hx]; rfl
          · rw [if_neg hx]
        · intro x
          dsimp only
          by_cases hx : (x.id == sel.id) = true
          · rw [if_pos hx]
            exact le_refl _
          · rw [if_neg hx]
        · intro x hle
          dsimp only
          by_cases hx : (x.id == sel.id) = true
          · rw [if_pos hx]; exact hle
          · rw [if_neg hx]; exact hle
        · intro _ x hf _
          dsimp only
          by_cases hx : (x.id == sel.id) = true
          · rw [if_pos hx]
            exact fun hcon => TaskStatus.noConfusion hcon
          · rw [if_neg hx]
            rw [hf]
            exact fun hcon => TaskStatus.noConfusion hcon
      | false =>
        refine Or.inr ⟨fun t => if t.id == sel.id then procFail msg now t else t,
          ?_, ?_, ?_, ?_, ?_⟩
        · simp only [stepOp, handleProcessNext, hsel]
          rfl
        · intro x
          dsimp only
          by_cases hx : (x.id == sel.id) = true
          · rw [if_pos hx]
            unfold procFail
            split <;> rfl
          · rw [if_neg hx]
        · intro x
          dsimp only
          by_cases hx : (x.id == sel.id) = true
          · rw [if_pos hx]
            unfold procFail
            split
            · show x.retryCount ≤ x.retryCount + 1
              omega
            · rfl
          · rw [if_neg hx]
        · intro x hle
          dsimp only
          by_cases hx : (x.id == sel.id) = true
          · rw [if_pos hx]
            unfold procFail
            split
            · rename_i hm
              show x.retryCount + 1 ≤ x.maxRetries
              omega
            · exact hle
          · rw [if_neg hx]
            exact hle
        · intro _ x hf hrc
          dsimp only
          by_cases hx : (x.id == sel.id) = true
          · rw [if_pos hx]
            unfold procFail
            rw [if_neg (by omega)]
            exact fun hcon => TaskStatus.noConfusion hcon
          · rw [if_neg hx]
            rw [hf]
            exact fun hcon => TaskStatus.noConfusion hcon
  | retryAll now =>
    refine Or.inr ⟨fun t =>
      if isRetryable t then
        { t with status := .retrying, retryCount := t.retryCount + 1, updatedAt := now }
      else t, rfl, ?_, ?_, ?_, ?_⟩
    · intro x
      dsimp only
      by_cases hx : isRetryable x = true
      · rw [if_pos hx]
      · rw [if_neg hx]
    · intro x
      dsimp only
      by_cases hx : isRetryable x = true
      · rw [if_pos hx]
        show x.retryCount ≤ x.retryCount + 1
        omega
      · rw [if_neg hx]
    · intro x hle
      dsimp only
      by_cases hx : isRetryable x = true
      · rw [if_pos hx]
        show x.retryCount + 1 ≤ x.maxRetries
        have : decide (x.retryCount < x.maxRetries) = true := by
          simp only [isRetryable, Bool.and_eq_true] at hx
          exact hx.2
        simp only [decide_eq_true_eq] at this
        omega
      · rw [if_neg hx]
        exact hle
    · intro _ x hf hrc
      dsimp only
      have hx : isRetryable x = false := by
        simp only [isRetryable]
        rw [hrc]
        simp
      rw [if_neg (by rw [hx]; exact fun hcon => Bool.noConfusion hcon)]
      rw [hf]
      exact fun hcon => TaskStatus.noConfusion hcon

/-- The bound `retryCount ≤ maxRetries` survives any restricted operation. -/
theorem rcInv_step (cfg : Config) (s : QueueState) (op : QOp)
    (hop : goodOp op = true)
    (hinv : ∀ t ∈ s.tasks, t.retryCount ≤ t.maxRetries) :
    ∀ t ∈ (stepOp cfg s op).tasks, t.retryCount ≤ t.maxRetries := by
  rcases step_shape cfg s op hop with ⟨ts, hts, hz⟩ | ⟨pf, hmap, -, -, hle, -⟩
  · intro t ht
    rw [hts] at ht
    rcases List.mem_append.mp ht with hmem | hmem
    · exact hinv t hmem
    · rw [hz t hmem]
      exact Nat.zero_le _
  · intro t ht
    rw [hmap] at ht
    rw [List.mem_map] at ht
    obtain ⟨x, hxmem, rfl⟩ := ht
    exact hle x (hinv x hxmem)

/-- `retryCount` of a surviving task never decreases across one restricted
operation. -/
theorem mono_step (cfg : Config) (s : QueueState) (op : QOp)
    (hop : goodOp op = true) (i : Nat) (t t' : Task)
    (h1 : getTask? s i = some t) (h2 : getTask? (stepOp cfg s op) i = some t') :
    t.retryCount ≤ t'.retryCount := by
  rcases step_shape cfg s op hop with ⟨ts, hts, -⟩ | ⟨pf, hmap, hid, hmono, -, -⟩
  · unfold getTask? at h1 h2
    rw [hts, find_append_left _ _ _ _ h1] at h2
    rw [Option.some.injEq] at h2
    subst h2
    exact le_refl _
  · unfold getTask? at h1 h2
    rw [hmap, find_map_keyPres s.tasks pf (fun x => x.id == i)
      (fun x => by dsimp only; rw [hid x]), h1, Option.map_some'] at h2
    rw [Option.some.injEq] at h2
    subst h2
    exact hmono t

/-- No restricted operation that does not explicitly request `retrying`
moves a failed task with exhausted retries into `retrying`. -/
theorem noRetry_step (cfg : Config) (s : QueueState) (op : QOp)
    (hop : goodOp op = true) (hsr : setsRetrying op = false) (i : Nat) (t t' : Task)
    (h1 : getTask? s i = some t) (hf : t.status = TaskStatus.failed)
    (hrc : t.retryCount = t.maxRetries)
    (h2 : getTask? (stepOp cfg s op) i = some t') :
    t'.status ≠ TaskStatus.retrying := by
  rcases step_shape cfg s op hop with ⟨ts, hts, -⟩ | ⟨pf, hmap, hid, -, -, hnr⟩
  · unfold getTask? at h1 h2
    rw [hts, find_append_left _ _ _ _ h1] at h2
    rw [Option.some.injEq] at h2
    subst h2
    rw [hf]
    exact fun hcon => TaskStatus.noConfusion hcon
  · unfold getTask? at h1 h2
    rw [hmap, find_map_keyPres s.tasks pf (fun x => x.id == i)
      (fun x => by dsimp only; rw [hid x]), h1, Option.map_some'] at h2
    rw [Option.some.injEq] at h2
    subst h2
    exact hnr hsr t hf hrc

/-- The retry bound holds along every restricted operation sequence. -/
theorem rcInv_foldl (cfg : Config) (ops : List QOp) :
    ∀ s, (∀ o ∈ ops, goodOp o = true) →
      (∀ t ∈ s.tasks, t.retryCount ≤ t.maxRetries) →
      ∀ t ∈ (ops.foldl (stepOp cfg) s).tasks, t.retryCount ≤ t.maxRetries := by
  induction ops with
  | nil => intro s _ hinv; exact hinv
  | cons o rest ih =>
    intro s hops hinv
    rw [List.foldl_cons]
    exact ih (stepOp cfg s o) (fun o' ho' => hops o' (List.mem_cons_of_mem _ ho'))
      (rcInv_step cfg s o (hops o (List.mem_cons_self _ _)) hinv)

/-- The retry bound holds in every state reachable from the initial one by
restricted operations. -/
theorem rcInv_run (cfg : Config) (ops : List QOp)
    (hops : ∀ o ∈ ops, goodOp o = true) :
    ∀ t ∈ (runOps cfg ops).tasks, t.retryCount ≤ t.maxRetries :=
  rcInv_foldl cfg ops initialQueueState hops (by intro t ht; simp [initialQueueState] at ht)

/-- C5 (amended): along every operation sequence in which `updateTask`
requests never set `retryCount` or `maxRetries`, `retryCount ≤ maxRetries`
holds after every operation, `retryCount` never decreases for any surviving
task, and a failed task with exhausted retries is never moved to `retrying`
by any operation that does not explicitly request that status — the
unrestricted claim fails because `updateTask` merges arbitrary fields. -/
theorem c5_retry_invariants (cfg : Config) (ops : List QOp) (op : QOp)
    (hops : ∀ o ∈ ops, goodOp o = true) (hop : goodOp op = true) :
    (∀ t ∈ (stepOp cfg (runOps cfg ops) op).tasks, t.retryCount ≤ t.maxRetries) ∧
    (∀ i t t', getTask? (runOps cfg ops) i = some t →
      getTask? (stepOp cfg (runOps cfg ops) op) i = some t' →
      t.retryCount ≤ t'.retryCount) ∧
    (setsRetrying op = false →
      ∀ i t t', getTask? (runOps cfg ops) i = some t →
        t.status = TaskStatus.failed → t.retryCount = t.maxRetries →
        getTask? (stepOp cfg (runOps cfg ops) op) i = some t' →
        t'.status ≠ TaskStatus.retrying) :=
  ⟨rcInv_step cfg _ op hop (rcInv_run cfg ops hops),
   fun i t t' h1 h2 => mono_step cfg _ op hop i t t' h1 h2,
   fun hsr i t t' h1 hf hrc h2 => noRetry_step cfg _ op hop hsr i t t' h1 hf hrc h2⟩

/-- C5 counterexample: `updateTask` merges an arbitrary `retryCount`, so
PATCHing `retryCount := 7` onto a fresh task with `maxRetries = 5` leaves a
state violating `retryCount ≤ maxRetries` (and the merge can likewise
decrease it). -/
theorem c5_counterexample :
    (getTask? (runOps cfgA [QOp.enq {} 0, QOp.upd 0 { retryCount := some 7 } 0]) 0).map
        (fun t => (t.retryCount, t.maxRetries)) = some (7, 5) ∧
    ¬ (7 ≤ 5) :=
  ⟨by decide, by decide⟩

/-- C5 witness: a failing `processNext` on the freshly enqueued task bumps
its `retryCount` from 0 to 1, respecting monotonicity. -/
theorem c5_witness :
    getTask? (runOps cfgA [QOp.enq {} 0]) 0 = some c5before ∧
    getTask? (stepOp cfgA (runOps cfgA [QOp.enq {} 0]) (QOp.proc false "x" 1)) 0 =
      some c5after ∧
    c5before.retryCount ≤ c5after.retryCount :=
  ⟨by decide, by decide,
   (c5_retry_invariants cfgA [QOp.enq {} 0] (QOp.proc false "x" 1)
     (by decide) (by decide)).2.1 0 c5before c5after (by decide) (by decide)⟩

end BlackRoad
